import Mathlib

/-!
Shallow embedding of the coordination core of `src/traffic_simulator.py`
(class `TrafficSimulator`): road and car data, the admission predicate
`can_cross`, an atomic-step relation for the per-road car and light actions
of `car_process` and `traffic_light_process`, a control-state machine for
the single traffic-light thread, and the orchestrator entry points
`start_simulation`, `stop_simulation` and `toggle_simulation`.

Modelling conventions:
* Python floats are modelled as rationals (`ℚ`); every arithmetic update in
  the source adds the literal `0.1`, so no rounding behaviour is lost.
* The Python `Car.state` strings `"waiting"`, `"crossing"`, `"exited"` are
  kept as strings.
* Locks, condition variables and the semaphore field are not data; they make
  the guarded regions atomic, so the step relation performs each locked
  region of the source as one atomic transition.  `last_light_change`
  (a wall-clock timestamp, diagnostic only) is omitted.
* Real-time sleeps are idealized: `time.sleep(0.1)` advances time by exactly
  `0.1` and loop bodies are instantaneous, so the crossing loop of
  `car_process` (`while time.time() - start_time < CAR_CROSSING_TIME`)
  performs one `position += 0.1` tick exactly while
  `position < CAR_CROSSING_TIME`.
* Python `int(...)` applied to an entry-widget string is modelled by
  `parseInt` below; `none` stands for the `ValueError` the source lets
  escape to its caller.
-/

namespace TrafficSim

/-- Constant `CAR_CROSSING_TIME = 2` (src line 13). -/
def CAR_CROSSING_TIME : ℚ := 2

/-- Constant `MAX_WAITING_TIME = 30` (src line 19). -/
def MAX_WAITING_TIME : ℚ := 30

/-- Constant `SAFE_DISTANCE = 10` (src line 20). -/
def SAFE_DISTANCE : ℚ := 10

/-- Constant `CANVAS_WIDTH = 500` (src line 15). -/
def CANVAS_WIDTH : ℚ := 500

/-- Enum `LightState` of the source (src lines 36-39). -/
inductive LightState
| RED
| GREEN
| YELLOW
deriving DecidableEq

/-- Dataclass `Car` of the source (src lines 41-48). -/
structure Car where
  id : Nat
  road_num : Nat
  position : ℚ
  speed : ℚ
  waiting_time : ℚ
  state : String
deriving DecidableEq

/-- Dataclass `Road` of the source (src lines 50-59); the lock, condition and
semaphore fields are synchronization primitives (atomicity of steps), and
`last_light_change` is a wall-clock timestamp, so neither is data here. -/
structure Road where
  name : String
  light_state : LightState
  cars : List Car
  queue_length : Nat
deriving DecidableEq

/-- Source method `TrafficSimulator.can_cross` (src lines 524-548).  `case_type` is
`self.case_type`; `k` is the integer the source parses from `k_entry`
with `int(self.k_entry.get())` at the start of the bounded branch. -/
def can_cross (case_type k : Int) (road : Road) (car : Car) : Bool :=
  if case_type == 1 then
    !(road.cars.any fun c => c.state == "crossing")
  else
    match road.cars.filter (fun c => c.state == "crossing") with
    | [] => true
    | c0 :: rest =>
      if ((c0 :: rest).length : Int) ≥ k then
        false
      else if car.position = 0 then
        true
      else
        let last_car := rest.foldl (fun best c => if best.position < c.position then c else best) c0
        let min_distance := SAFE_DISTANCE / CANVAS_WIDTH
        decide (car.position - last_car.position ≥ min_distance)

/-- Modelled from the spec: the five-step BOUNDED(k) admission algorithm of
spec §4.4, written from the spec's words (the `crossing` subset, empty-set
admission, the `|crossing| >= k` capacity rejection, the fresh-car
`progress == 0` rule, and `farthest = max(progress) over crossing` with the
spacing test `candidate.progress - farthest >= safe_spacing`), for
comparison with the source's `can_cross`. -/
def canCrossBoundedSpec (k : Int) (safe_spacing : ℚ) (cars : List Car) (cand : Car) : Bool :=
  match cars.filter (fun c => c.state == "crossing") with
  | [] => true
  | c0 :: rest =>
    if ((c0 :: rest).length : Int) ≥ k then
      false
    else if cand.position = 0 then
      true
    else
      let farthest := rest.foldl (fun m c => max m c.position) c0.position
      decide (cand.position - farthest ≥ safe_spacing)

/-- Python's `max(cars, key=lambda c: c.position)` keeps the first element
whose key is maximal; the chosen element's key is the `max` of the keys. -/
lemma foldl_max_position (cs : List Car) (c0 : Car) :
    (cs.foldl (fun best c => if best.position < c.position then c else best) c0).position
      = cs.foldl (fun m c => max m c.position) c0.position := by
  induction cs generalizing c0 with
  | nil => rfl
  | cons x xs ih =>
    simp only [List.foldl_cons]
    rw [ih]
    rcases lt_or_le c0.position x.position with h | h
    · rw [if_pos h, max_eq_right h.le]
    · rw [if_neg (not_lt.2 h), max_eq_left h]

/-- Claim C2: in BOUNDED(k) mode (`case_type = 2`), `can_cross` computes
exactly the spec's five-step algorithm with safe spacing
`SAFE_DISTANCE / CANVAS_WIDTH`. -/
theorem bounded_matches_spec (k : Int) (road : Road) (car : Car) :
    can_cross 2 k road car
      = canCrossBoundedSpec k (SAFE_DISTANCE / CANVAS_WIDTH) road.cars car := by
  unfold can_cross canCrossBoundedSpec
  simp only [show ((2 : Int) == 1) = false by rfl, Bool.false_eq_true, if_false]
  cases road.cars.filter (fun c => c.state == "crossing") with
  | nil => rfl
  | cons c0 rest =>
    simp only [foldl_max_position]

/-- The cars of a road currently in state `"crossing"`, counted the way
`can_cross` builds its `crossing_cars` list. -/
def countCrossing (l : List Car) : Nat :=
  (l.filter fun c => c.state == "crossing").length

/-- One atomic transition of a road's shared state, taken from the locked
regions of `car_process` (src lines 490-522) and the per-road writes of
`traffic_light_process` (src lines 550-577).  `case_type` and `k` are the
run's admission configuration.

* `arrive`: `road.cars.append(car)` with the fresh
  `Car(car_id, road_num, 0.0, 0.0, 0.0, "waiting")` (src lines 492-495).
* `startCrossing`: the admission branch — the light is GREEN or YELLOW,
  `can_cross` holds, and the car sets its own state to `"crossing"`
  (src lines 500-504).  The waiting-loop control flow guarantees the
  actor only reaches this check while `waiting_time <= MAX_WAITING_TIME`:
  the loop breaks immediately after the increment that first exceeds it
  (src lines 507-510).
* `waitTick`: one wake of a waiting actor, `car.waiting_time += 0.1`
  (src line 507); only an actor still inside its loop (so with
  `waiting_time <= MAX_WAITING_TIME` before the increment) can wake.
* `advance`: one tick of the unlocked crossing loop, `car.position += 0.1`
  while the idealized elapsed time — equal to `position`, both start at 0
  and both grow by `0.1` per tick — is below `CAR_CROSSING_TIME`
  (src lines 513-516).
* `exitCar`: `road.cars.remove(car)` for a car that finished crossing
  (src lines 518-521); the car's `state = "exited"` write happens after the
  removal and concerns an object no longer in the collection.
* `lightGreen`/`lightYellow`/`lightRed`: the three per-road phase writes of
  `traffic_light_process`, each performed under the road's condition lock
  and each following the observed RED → GREEN → YELLOW → RED order
  (src lines 559-577). -/
inductive Step (case_type k : Int) : Road → Road → Prop
  | arrive (r : Road) (cid rn : Nat) :
      Step case_type k r { r with cars := r.cars ++ [⟨cid, rn, 0, 0, 0, "waiting"⟩] }
  | startCrossing (r : Road) (l1 l2 : List Car) (c : Car) :
      r.cars = l1 ++ c :: l2 →
      c.state = "waiting" →
      c.waiting_time ≤ MAX_WAITING_TIME →
      (r.light_state = LightState.GREEN ∨ r.light_state = LightState.YELLOW) →
      can_cross case_type k r c = true →
      Step case_type k r { r with cars := l1 ++ { c with state := "crossing" } :: l2 }
  | waitTick (r : Road) (l1 l2 : List Car) (c : Car) :
      r.cars = l1 ++ c :: l2 →
      c.state = "waiting" →
      c.waiting_time ≤ MAX_WAITING_TIME →
      Step case_type k r { r with cars := l1 ++ { c with waiting_time := c.waiting_time + 1/10 } :: l2 }
  | advance (r : Road) (l1 l2 : List Car) (c : Car) :
      r.cars = l1 ++ c :: l2 →
      c.state = "crossing" →
      c.position < CAR_CROSSING_TIME →
      Step case_type k r { r with cars := l1 ++ { c with position := c.position + 1/10 } :: l2 }
  | exitCar (r : Road) (l1 l2 : List Car) (c : Car) :
      r.cars = l1 ++ c :: l2 →
      c.state = "crossing" →
      Step case_type k r { r with cars := l1 ++ l2 }
  | lightGreen (r : Road) :
      r.light_state = LightState.RED →
      Step case_type k r { r with light_state := LightState.GREEN }
  | lightYellow (r : Road) :
      r.light_state = LightState.GREEN →
      Step case_type k r { r with light_state := LightState.YELLOW }
  | lightRed (r : Road) :
      r.light_state = LightState.YELLOW →
      Step case_type k r { r with light_state := LightState.RED }

/-- A road as `start_simulation` hands it to the actors: empty `cars`,
light RED (src lines 76-83 and 593-597). -/
def initRoad (nm : String) : Road :=
  { name := nm, light_state := LightState.RED, cars := [], queue_length := 0 }

/-- The road states reachable in a run with admission configuration
`(case_type, k)`. -/
inductive Reach (case_type k : Int) : Road → Prop
  | init (nm : String) : Reach case_type k (initRoad nm)
  | step (r r' : Road) : Reach case_type k r → Step case_type k r r' →
      Reach case_type k r'

/-- Zero or more steps. -/
inductive Steps (case_type k : Int) : Road → Road → Prop
  | refl (r : Road) : Steps case_type k r r
  | tail (r r' r'' : Road) : Steps case_type k r r' → Step case_type k r' r'' →
      Steps case_type k r r''

lemma countCrossing_append (l1 l2 : List Car) :
    countCrossing (l1 ++ l2) = countCrossing l1 + countCrossing l2 := by
  simp [countCrossing]

lemma countCrossing_cons (c : Car) (l : List Car) :
    countCrossing (c :: l)
      = (if c.state == "crossing" then 1 else 0) + countCrossing l := by
  by_cases h : c.state == "crossing" <;>
    simp [countCrossing, List.filter_cons, h, Nat.add_comm]

lemma countCrossing_mid (l1 l2 : List Car) (c : Car) :
    countCrossing (l1 ++ c :: l2)
      = countCrossing l1 + countCrossing l2
          + (if c.state == "crossing" then 1 else 0) := by
  rw [countCrossing_append, countCrossing_cons]
  omega

/-- Replacing the distinguished element of a split list, when the
replacement satisfies the predicate every old element satisfied. -/
lemma forall_mem_replace {P : Car → Prop} {l1 l2 : List Car} {c : Car} (c' : Car)
    (h : ∀ x ∈ l1 ++ c :: l2, P x) (hc' : P c') :
    ∀ x ∈ l1 ++ c' :: l2, P x := by
  intro x hx
  rcases List.mem_append.1 hx with h1 | h2
  · exact h x (List.mem_append_left _ h1)
  · rcases List.mem_cons.1 h2 with rfl | h3
    · exact hc'
    · exact h x (List.mem_append_right _ (List.mem_cons_of_mem _ h3))

/-- Removing the distinguished element of a split list. -/
lemma forall_mem_drop {P : Car → Prop} {l1 l2 : List Car} {c : Car}
    (h : ∀ x ∈ l1 ++ c :: l2, P x) :
    ∀ x ∈ l1 ++ l2, P x := by
  intro x hx
  rcases List.mem_append.1 hx with h1 | h2
  · exact h x (List.mem_append_left _ h1)
  · exact h x (List.mem_append_right _ (List.mem_cons_of_mem _ h2))

lemma mem_mid (l1 l2 : List Car) (c : Car) : c ∈ l1 ++ c :: l2 :=
  List.mem_append_right _ (List.mem_cons_self _ _)

lemma waiting_beq_crossing : (("waiting" : String) == "crossing") = false := by
  decide

lemma crossing_beq_crossing : (("crossing" : String) == "crossing") = true := by
  decide

/-- The EXCLUSIVE branch of `can_cross` (src line 526), characterized. -/
lemma can_cross_exclusive_iff (k : Int) (road : Road) (car : Car) :
    can_cross 1 k road car = true ↔ ∀ c ∈ road.cars, c.state ≠ "crossing" := by
  simp [can_cross, List.any_eq_true]

/-- What a successful BOUNDED admission says about the crossing census:
either nobody was crossing, or strictly fewer than `k` cars were. -/
lemma can_cross_bounded_count (k : Int) (road : Road) (car : Car)
    (h : can_cross 2 k road car = true) :
    countCrossing road.cars = 0 ∨ (countCrossing road.cars : Int) < k := by
  unfold can_cross at h
  simp only [show ((2 : Int) == 1) = false by rfl, Bool.false_eq_true, if_false] at h
  rcases hfe : road.cars.filter (fun c => c.state == "crossing") with _ | ⟨c0, rest⟩
  · left
    simp [countCrossing, hfe]
  · right
    rw [hfe] at h
    dsimp only at h
    by_cases hk : (((c0 :: rest).length : Nat) : Int) ≥ k
    · rw [if_pos hk] at h
      exact absurd h (by simp)
    · have : countCrossing road.cars = (c0 :: rest).length := by
        simp [countCrossing, hfe]
      rw [this]
      omega

/-- Claim C1 invariant: in EXCLUSIVE mode, at most one car of a road is
crossing in any reachable road state. -/
lemma exclusive_inv (k : Int) (r : Road) (h : Reach 1 k r) :
    countCrossing r.cars ≤ 1 := by
  induction h with
  | init nm => simp [initRoad, countCrossing]
  | step r r' _ hs ih =>
    cases hs with
    | arrive cid rn =>
      dsimp only
      rw [countCrossing_append, countCrossing_cons]
      simp only [waiting_beq_crossing, Bool.false_eq_true, if_false]
      have h0 : countCrossing ([] : List Car) = 0 := rfl
      omega
    | startCrossing l1 l2 c hcars hw hwt hl hcc =>
      have hall := (can_cross_exclusive_iff k r c).1 hcc
      have h0 : countCrossing r.cars = 0 := by
        have : r.cars.filter (fun c => c.state == "crossing") = [] := by
          rw [List.filter_eq_nil_iff]
          intro x hx
          simpa using hall x hx
        simp [countCrossing, this]
      rw [hcars, countCrossing_mid] at h0
      dsimp only
      rw [countCrossing_mid]
      simp only [crossing_beq_crossing, if_true]
      omega
    | waitTick l1 l2 c hcars hw hwt =>
      rw [hcars, countCrossing_mid] at ih
      dsimp only
      rw [countCrossing_mid]
      exact ih
    | advance l1 l2 c hcars hcr hpos =>
      rw [hcars, countCrossing_mid] at ih
      dsimp only
      rw [countCrossing_mid]
      exact ih
    | exitCar l1 l2 c hcars hcr =>
      rw [hcars, countCrossing_mid] at ih
      dsimp only
      rw [countCrossing_append]
      omega
    | lightGreen hl => exact ih
    | lightYellow hl => exact ih
    | lightRed hl => exact ih

/-- Claim C4 invariant: in BOUNDED(k) mode with `k ≥ 1`, at most `k` cars
of a road are crossing in any reachable road state. -/
lemma bounded_inv (k : Int) (hk : 1 ≤ k) (r : Road) (h : Reach 2 k r) :
    (countCrossing r.cars : Int) ≤ k := by
  induction h with
  | init nm =>
    simp only [initRoad, countCrossing, List.filter_nil, List.length_nil,
      Nat.cast_zero]
    omega
  | step r r' _ hs ih =>
    cases hs with
    | arrive cid rn =>
      dsimp only
      rw [countCrossing_append, countCrossing_cons]
      simp only [waiting_beq_crossing, Bool.false_eq_true, if_false]
      have h0 : countCrossing ([] : List Car) = 0 := rfl
      omega
    | startCrossing l1 l2 c hcars hw hwt hl hcc =>
      rcases can_cross_bounded_count k r c hcc with h0 | hlt
      · rw [hcars, countCrossing_mid] at h0
        dsimp only
        rw [countCrossing_mid]
        simp only [crossing_beq_crossing, if_true]
        push_cast
        omega
      · rw [hcars, countCrossing_mid] at hlt
        dsimp only
        rw [countCrossing_mid]
        simp only [crossing_beq_crossing, if_true]
        rw [hw] at hlt
        simp only [waiting_beq_crossing, if_false] at hlt
        push_cast
        push_cast at hlt
        omega
    | waitTick l1 l2 c hcars hw hwt =>
      rw [hcars, countCrossing_mid] at ih
      dsimp only
      rw [countCrossing_mid]
      exact ih
    | advance l1 l2 c hcars hcr hpos =>
      rw [hcars, countCrossing_mid] at ih
      dsimp only
      rw [countCrossing_mid]
      exact ih
    | exitCar l1 l2 c hcars hcr =>
      rw [hcars, countCrossing_mid] at ih
      dsimp only
      rw [countCrossing_append]
      push_cast
      push_cast at ih
      omega
    | lightGreen hl => exact ih
    | lightYellow hl => exact ih
    | lightRed hl => exact ih

/-- A car only ever enters state `"crossing"` through the admission branch,
which the waiting loop reaches only while `waiting_time ≤ MAX_WAITING_TIME`;
so no reachable crossing car has overstayed the timeout. -/
lemma crossing_wt_inv (ct k : Int) (r : Road) (h : Reach ct k r) :
    ∀ c ∈ r.cars, c.state = "crossing" → c.waiting_time ≤ MAX_WAITING_TIME := by
  induction h with
  | init nm => simp [initRoad]
  | step r r' _ hs ih =>
    cases hs with
    | arrive cid rn =>
      dsimp only
      intro x hx hcx
      rcases List.mem_append.1 hx with h1 | h2
      · exact ih x h1 hcx
      · rcases List.mem_cons.1 h2 with rfl | h3
        · exact absurd hcx (by simp)
        · exact absurd h3 (by simp)
    | startCrossing l1 l2 c hcars hw hwt hl hcc =>
      dsimp only
      rw [hcars] at ih
      exact forall_mem_replace _ ih (fun _ => hwt)
    | waitTick l1 l2 c hcars hw hwt =>
      dsimp only
      rw [hcars] at ih
      refine forall_mem_replace _ ih (fun hcx => ?_)
      have hcx' : c.state = "crossing" := hcx
      rw [hw] at hcx'
      exact absurd hcx' (by simp)
    | advance l1 l2 c hcars hcr hpos =>
      dsimp only
      rw [hcars] at ih
      exact forall_mem_replace _ ih (fun _ => ih c (mem_mid l1 l2 c) hcr)
    | exitCar l1 l2 c hcars hcr =>
      dsimp only
      rw [hcars] at ih
      exact forall_mem_drop ih
    | lightGreen hl => exact ih
    | lightYellow hl => exact ih
    | lightRed hl => exact ih

/-- A waiting car that has exceeded the timeout is never touched by any
step: no transition of `car_process` removes it from `road.cars` (the only
removal, src line 520, is for a car that crossed), admits it, or ticks it
(its actor has already left the waiting loop). -/
lemma step_timeout_persist (ct k : Int) (r r' : Road) (c : Car)
    (hs : Step ct k r r') (hc : c ∈ r.cars) (hw : c.state = "waiting")
    (ht : MAX_WAITING_TIME < c.waiting_time) : c ∈ r'.cars := by
  cases hs with
  | arrive cid rn => exact List.mem_append_left _ hc
  | startCrossing l1 l2 c0 hcars hw0 hwt0 hl hcc =>
    rw [hcars] at hc
    dsimp only
    rcases List.mem_append.1 hc with h1 | h2
    · exact List.mem_append_left _ h1
    · rcases List.mem_cons.1 h2 with rfl | h3
      · exact absurd hwt0 (not_le.2 ht)
      · exact List.mem_append_right _ (List.mem_cons_of_mem _ h3)
  | waitTick l1 l2 c0 hcars hw0 hwt0 =>
    rw [hcars] at hc
    dsimp only
    rcases List.mem_append.1 hc with h1 | h2
    · exact List.mem_append_left _ h1
    · rcases List.mem_cons.1 h2 with rfl | h3
      · exact absurd hwt0 (not_le.2 ht)
      · exact List.mem_append_right _ (List.mem_cons_of_mem _ h3)
  | advance l1 l2 c0 hcars hcr hpos =>
    rw [hcars] at hc
    dsimp only
    rcases List.mem_append.1 hc with h1 | h2
    · exact List.mem_append_left _ h1
    · rcases List.mem_cons.1 h2 with rfl | h3
      · rw [hw] at hcr
        exact absurd hcr (by simp)
      · exact List.mem_append_right _ (List.mem_cons_of_mem _ h3)
  | exitCar l1 l2 c0 hcars hcr =>
    rw [hcars] at hc
    dsimp only
    rcases List.mem_append.1 hc with h1 | h2
    · exact List.mem_append_left _ h1
    · rcases List.mem_cons.1 h2 with rfl | h3
      · rw [hw] at hcr
        exact absurd hcr (by simp)
      · exact List.mem_append_right _ h3
  | lightGreen hl => exact hc
  | lightYellow hl => exact hc
  | lightRed hl => exact hc

/-- Persistence of `step_timeout_persist` along any number of steps. -/
lemma steps_timeout_persist (ct k : Int) (r r' : Road) (c : Car)
    (hs : Steps ct k r r') (hc : c ∈ r.cars) (hw : c.state = "waiting")
    (ht : MAX_WAITING_TIME < c.waiting_time) : c ∈ r'.cars := by
  induction hs with
  | refl => exact hc
  | tail r1 r2 hs1 h1 ih => exact step_timeout_persist ct k r1 r2 c h1 ih hw ht

/-- Positions are multiples of `0.1`: `0` at arrival and while waiting,
and at most `20` ticks of `0.1` accumulate during the crossing loop. -/
lemma position_inv (ct k : Int) (r : Road) (h : Reach ct k r) :
    ∀ c ∈ r.cars, (c.state = "waiting" → c.position = 0)
      ∧ ∃ n : ℕ, n ≤ 20 ∧ c.position = (n : ℚ) / 10 := by
  induction h with
  | init nm => simp [initRoad]
  | step r r' _ hs ih =>
    cases hs with
    | arrive cid rn =>
      dsimp only
      intro x hx
      rcases List.mem_append.1 hx with h1 | h2
      · exact ih x h1
      · rcases List.mem_cons.1 h2 with rfl | h3
        · exact ⟨fun _ => rfl, 0, by norm_num⟩
        · exact absurd h3 (by simp)
    | startCrossing l1 l2 c hcars hw hwt hl hcc =>
      dsimp only
      rw [hcars] at ih
      refine forall_mem_replace _ ih ⟨fun hx => ?_, (ih c (mem_mid l1 l2 c)).2⟩
      exact absurd (show ("crossing" : String) = "waiting" from hx) (by simp)
    | waitTick l1 l2 c hcars hw hwt =>
      dsimp only
      rw [hcars] at ih
      exact forall_mem_replace _ ih
        ⟨fun _ => (ih c (mem_mid l1 l2 c)).1 hw, (ih c (mem_mid l1 l2 c)).2⟩
    | advance l1 l2 c hcars hcr hpos =>
      dsimp only
      rw [hcars] at ih
      obtain ⟨n, hn, hpn⟩ := (ih c (mem_mid l1 l2 c)).2
      refine forall_mem_replace _ ih ⟨fun hx => ?_, n + 1, ?_, ?_⟩
      · have hx' : c.state = "waiting" := hx
        rw [hcr] at hx'
        exact absurd hx' (by simp)
      · have h2 : (n : ℚ) / 10 < 2 := by
          rw [← hpn]
          simpa [CAR_CROSSING_TIME] using hpos
        have h3 : (n : ℚ) < 20 := by linarith
        have h4 : n < 20 := by exact_mod_cast h3
        omega
      · show c.position + 1 / 10 = ((n + 1 : ℕ) : ℚ) / 10
        rw [hpn]
        push_cast
        ring
    | exitCar l1 l2 c hcars hcr =>
      dsimp only
      rw [hcars] at ih
      exact forall_mem_drop ih
    | lightGreen hl => exact ih
    | lightYellow hl => exact ih
    | lightRed hl => exact ih

/-- The timeout scenario's car after `n` waiting ticks of `0.1`. -/
def waitCar (n : ℕ) : Car :=
  { id := 1, road_num := 1, position := 0, speed := 0,
    waiting_time := (n : ℚ) / 10, state := "waiting" }

/-- Road 1 holding only that waiting car, light RED. -/
def waitRoad (n : ℕ) : Road :=
  { name := "Road 1", light_state := LightState.RED, cars := [waitCar n],
    queue_length := 0 }

/-- The waiting car can accumulate `301` ticks (`waiting_time = 30.1`,
past `MAX_WAITING_TIME = 30`) while the light stays RED. -/
lemma reach_waitRoad (ct k : Int) : ∀ n : ℕ, n ≤ 301 → Reach ct k (waitRoad n) := by
  intro n
  induction n with
  | zero =>
    intro _
    have h0 : Reach ct k
        ({ initRoad "Road 1" with
            cars := (initRoad "Road 1").cars ++ [⟨1, 1, 0, 0, 0, "waiting"⟩] }) :=
      Reach.step _ _ (Reach.init "Road 1") (Step.arrive (initRoad "Road 1") 1 1)
    convert h0 using 2
    simp [waitRoad, waitCar, initRoad]
  | succ n ih =>
    intro hn
    have hr := ih (by omega)
    have hwt : (waitCar n).waiting_time ≤ MAX_WAITING_TIME := by
      show (n : ℚ) / 10 ≤ MAX_WAITING_TIME
      rw [MAX_WAITING_TIME, div_le_iff₀ (by norm_num)]
      have : (n : ℚ) ≤ 300 := by exact_mod_cast (by omega : n ≤ 300)
      linarith
    have h0 : Reach ct k
        ({ waitRoad n with
            cars := [] ++ { waitCar n with
              waiting_time := (waitCar n).waiting_time + 1 / 10 } :: [] }) :=
      Reach.step _ _ hr (Step.waitTick (waitRoad n) [] [] (waitCar n) rfl rfl hwt)
    convert h0 using 2
    simp [waitRoad, waitCar]
    ring

/-- The crossing scenario's car after `n` ticks of the crossing loop. -/
def crossCar (n : ℕ) : Car :=
  { id := 1, road_num := 1, position := (n : ℚ) / 10, speed := 0,
    waiting_time := 0, state := "crossing" }

/-- Road 1 holding only that crossing car, light GREEN. -/
def crossRoad (n : ℕ) : Road :=
  { name := "Road 1", light_state := LightState.GREEN, cars := [crossCar n],
    queue_length := 0 }

/-- A lone admitted car reaches `position = n / 10` for every `n ≤ 20`:
arrival, light to GREEN, admission, then `n` crossing ticks. -/
lemma reach_crossRoad (ct k : Int)
    (hadm : can_cross ct k
      ⟨"Road 1", LightState.GREEN, [waitCar 0], 0⟩ (waitCar 0) = true) :
    ∀ n : ℕ, n ≤ 20 → Reach ct k (crossRoad n) := by
  intro n
  induction n with
  | zero =>
    intro _
    have h1 : Reach ct k (waitRoad 0) := reach_waitRoad ct k 0 (by omega)
    have h2 : Reach ct k ({ waitRoad 0 with light_state := LightState.GREEN }) :=
      Reach.step _ _ h1 (Step.lightGreen (waitRoad 0) rfl)
    have h3 : Reach ct k
        ({ ({ waitRoad 0 with light_state := LightState.GREEN } : Road) with
            cars := [] ++ { waitCar 0 with state := "crossing" } :: [] }) :=
      Reach.step _ _ h2
        (Step.startCrossing _ [] [] (waitCar 0) rfl rfl
          (by show (0 : ℚ) / 10 ≤ MAX_WAITING_TIME; rw [MAX_WAITING_TIME]; norm_num)
          (Or.inl rfl) hadm)
    convert h3 using 2
    simp [crossRoad, crossCar, waitRoad, waitCar]
  | succ n ih =>
    intro hn
    have hr := ih (by omega)
    have hpos : (crossCar n).position < CAR_CROSSING_TIME := by
      show (n : ℚ) / 10 < CAR_CROSSING_TIME
      rw [CAR_CROSSING_TIME, div_lt_iff₀ (by norm_num)]
      have : (n : ℚ) < 20 := by exact_mod_cast (by omega : n < 20)
      linarith
    have h0 : Reach ct k
        ({ crossRoad n with
            cars := [] ++ { crossCar n with
              position := (crossCar n).position + 1 / 10 } :: [] }) :=
      Reach.step _ _ hr (Step.advance (crossRoad n) [] [] (crossCar n) rfl rfl hpos)
    convert h0 using 2
    simp [crossRoad, crossCar]
    ring

/-- One step of the per-road phase cycle RED → GREEN → YELLOW → RED. -/
def cycleNext (a b : LightState) : Prop :=
  (a = LightState.RED ∧ b = LightState.GREEN) ∨
  (a = LightState.GREEN ∧ b = LightState.YELLOW) ∨
  (a = LightState.YELLOW ∧ b = LightState.RED)

/-- The control state of the single `traffic_light_process` thread
(src lines 550-577): the two roads' phases and the program counter of the
loop body, which handles road 1 completely (`pc = 0,1,2`: about to set
GREEN, YELLOW, RED) and then road 2 (`pc = 3,4,5`) before looping. -/
structure LightSys where
  road1_light : LightState
  road2_light : LightState
  pc : Nat
deriving DecidableEq

/-- The writes of the single light thread, in program order; the sleeps
between them are where other threads interleave, but no other thread
writes a `light_state` during a run. -/
inductive LStep : LightSys → LightSys → Prop
  | green1 (s : LightSys) : s.pc = 0 →
      LStep s ⟨LightState.GREEN, s.road2_light, 1⟩
  | yellow1 (s : LightSys) : s.pc = 1 →
      LStep s ⟨LightState.YELLOW, s.road2_light, 2⟩
  | red1 (s : LightSys) : s.pc = 2 →
      LStep s ⟨LightState.RED, s.road2_light, 3⟩
  | green2 (s : LightSys) : s.pc = 3 →
      LStep s ⟨s.road1_light, LightState.GREEN, 4⟩
  | yellow2 (s : LightSys) : s.pc = 4 →
      LStep s ⟨s.road1_light, LightState.YELLOW, 5⟩
  | red2 (s : LightSys) : s.pc = 5 →
      LStep s ⟨s.road1_light, LightState.RED, 0⟩

/-- Light-thread states reachable from the start of a run: both roads RED
(reset by `start_simulation`, src lines 593-597) and the loop about to
handle road 1. -/
inductive LReach : LightSys → Prop
  | init : LReach ⟨LightState.RED, LightState.RED, 0⟩
  | step (s s' : LightSys) : LReach s → LStep s s' → LReach s'

/-- Strong invariant of the light thread: the phases are a function of the
program counter, and at most one road is away from RED at any time. -/
def lightInv (s : LightSys) : Prop :=
  (s.pc = 0 ∧ s.road1_light = LightState.RED ∧ s.road2_light = LightState.RED) ∨
  (s.pc = 1 ∧ s.road1_light = LightState.GREEN ∧ s.road2_light = LightState.RED) ∨
  (s.pc = 2 ∧ s.road1_light = LightState.YELLOW ∧ s.road2_light = LightState.RED) ∨
  (s.pc = 3 ∧ s.road1_light = LightState.RED ∧ s.road2_light = LightState.RED) ∨
  (s.pc = 4 ∧ s.road1_light = LightState.RED ∧ s.road2_light = LightState.GREEN) ∨
  (s.pc = 5 ∧ s.road1_light = LightState.RED ∧ s.road2_light = LightState.YELLOW)

lemma lreach_inv (s : LightSys) (h : LReach s) : lightInv s := by
  induction h with
  | init => exact Or.inl ⟨rfl, rfl, rfl⟩
  | step s s' _ hs ih =>
    cases hs with
    | green1 hpc =>
      rcases ih with ⟨h1, h2, h3⟩ | ⟨h1, h2, h3⟩ | ⟨h1, h2, h3⟩ | ⟨h1, h2, h3⟩ |
          ⟨h1, h2, h3⟩ | ⟨h1, h2, h3⟩ <;>
        first
          | exact Or.inr (Or.inl ⟨rfl, rfl, h3⟩)
          | omega
    | yellow1 hpc =>
      rcases ih with ⟨h1, h2, h3⟩ | ⟨h1, h2, h3⟩ | ⟨h1, h2, h3⟩ | ⟨h1, h2, h3⟩ |
          ⟨h1, h2, h3⟩ | ⟨h1, h2, h3⟩ <;>
        first
          | exact Or.inr (Or.inr (Or.inl ⟨rfl, rfl, h3⟩))
          | omega
    | red1 hpc =>
      rcases ih with ⟨h1, h2, h3⟩ | ⟨h1, h2, h3⟩ | ⟨h1, h2, h3⟩ | ⟨h1, h2, h3⟩ |
          ⟨h1, h2, h3⟩ | ⟨h1, h2, h3⟩ <;>
        first
          | exact Or.inr (Or.inr (Or.inr (Or.inl ⟨rfl, rfl, h3⟩)))
          | omega
    | green2 hpc =>
      rcases ih with ⟨h1, h2, h3⟩ | ⟨h1, h2, h3⟩ | ⟨h1, h2, h3⟩ | ⟨h1, h2, h3⟩ |
          ⟨h1, h2, h3⟩ | ⟨h1, h2, h3⟩ <;>
        first
          | exact Or.inr (Or.inr (Or.inr (Or.inr (Or.inl ⟨rfl, h2, rfl⟩))))
          | omega
    | yellow2 hpc =>
      rcases ih with ⟨h1, h2, h3⟩ | ⟨h1, h2, h3⟩ | ⟨h1, h2, h3⟩ | ⟨h1, h2, h3⟩ |
          ⟨h1, h2, h3⟩ | ⟨h1, h2, h3⟩ <;>
        first
          | exact Or.inr (Or.inr (Or.inr (Or.inr (Or.inr ⟨rfl, h2, rfl⟩))))
          | omega
    | red2 hpc =>
      rcases ih with ⟨h1, h2, h3⟩ | ⟨h1, h2, h3⟩ | ⟨h1, h2, h3⟩ | ⟨h1, h2, h3⟩ |
          ⟨h1, h2, h3⟩ | ⟨h1, h2, h3⟩ <;>
        first
          | exact Or.inl ⟨rfl, h2, rfl⟩
          | omega

/-- The proposition claim C7 asserts to be witnessed by some reachable
state: both roads simultaneously GREEN. -/
def bothGreenReachable : Prop :=
  ∃ s : LightSys, LReach s ∧ s.road1_light = LightState.GREEN
    ∧ s.road2_light = LightState.GREEN

/-- Accumulator pass over the decimal digits of an integer literal;
`none` as soon as a non-digit appears. -/
def digitsToNatAux : List Char → Nat → Option Nat
  | [], acc => some acc
  | d :: ds, acc =>
    if d.isDigit then digitsToNatAux ds (acc * 10 + (d.toNat - 48))
    else none

/-- Modelled from Python's built-in `int(str)` as the source uses it on
entry-widget text (src lines 528, 587, 588): an optional minus sign
followed by at least one decimal digit parses; anything else raises
`ValueError`, modelled as `none`. -/
def parseInt (s : String) : Option Int :=
  match s.data with
  | [] => none
  | '-' :: ds =>
    match ds with
    | [] => none
    | _ :: _ => (digitsToNatAux ds 0).map (fun n => -(n : Int))
  | ds => (digitsToNatAux ds 0).map (fun n => (n : Int))

/-- The orchestrator-level state of `TrafficSimulator` (src lines 61-98):
the run flag, the selected case, the three entry widgets' current texts,
the two roads, and the list of live car threads as `(car id, road)` pairs.
Widget handles, the message queue and the canvas are presentation-layer. -/
structure Orch where
  is_running : Bool
  case_type : Int
  case_var : String
  cars_entry : String
  k_entry : String
  road1 : Road
  road2 : Road
  car_threads : List (Nat × Nat)
deriving DecidableEq

/-- What a call to `start_simulation` did: the state it left behind, which
threads it spawned, and the `ValueError` (if any) that escaped to the
caller.  On an error the `state` field holds the mutations already made
before the raise. -/
structure StartResult where
  state : Orch
  light_thread_started : Bool
  display_thread_started : Bool
  cars_started : Nat
  error : Option String
deriving DecidableEq

/-- Source method `TrafficSimulator.start_simulation` (src lines 585-617).  `roadOf`
stands for `random.randint(1, 2)` per spawned car (src line 611).
Program order is preserved: `is_running = True` first (line 586), then
`int(self.case_var.get())` (line 587), then `int(self.cars_entry.get())`
(line 588) — each parse may raise, leaving the earlier mutations in
place — then the thread-list clear, the road resets, and the thread
spawns.  `k_entry` is never read here. -/
def start_simulation (roadOf : Nat → Nat) (s : Orch) : StartResult :=
  let s1 : Orch := { s with is_running := true }
  match parseInt s1.case_var with
  | none => ⟨s1, false, false, 0, some "ValueError: case_var"⟩
  | some ct =>
    let s2 : Orch := { s1 with case_type := ct }
    match parseInt s2.cars_entry with
    | none => ⟨s2, false, false, 0, some "ValueError: cars_entry"⟩
    | some num_cars =>
      let s3 : Orch := { s2 with
        car_threads := [],
        road1 := { s2.road1 with cars := [], light_state := LightState.RED },
        road2 := { s2.road2 with cars := [], light_state := LightState.RED } }
      let spawned := (List.range num_cars.toNat).map (fun i => (i + 1, roadOf (i + 1)))
      ⟨{ s3 with car_threads := spawned }, true, true, num_cars.toNat, none⟩

/-- Source method `TrafficSimulator.stop_simulation` (src lines 619-637): clear the run
flag and the car-thread list, empty both roads and reset both lights to
RED (the joins on the light and display threads change no state here). -/
def stop_simulation (s : Orch) : Orch :=
  { s with
    is_running := false,
    car_threads := [],
    road1 := { s.road1 with cars := [], light_state := LightState.RED },
    road2 := { s.road2 with cars := [], light_state := LightState.RED } }

/-- Source method `TrafficSimulator.toggle_simulation` (src lines 579-583): the button
entry point — start only when no run is active, otherwise stop. -/
def toggle_simulation (roadOf : Nat → Nat) (s : Orch) : StartResult :=
  if s.is_running = false then
    start_simulation roadOf s
  else
    ⟨stop_simulation s, false, false, 0, none⟩

/-- Claim C1: in EXCLUSIVE mode (`case_type = 1`), `can_cross` admits a
car iff no car currently in the road's `cars` collection has state
CROSSING; consequently, along every trace of the atomic step relation, at
no point do two cars of the same road both hold state CROSSING. -/
theorem exclusive_mutual_exclusion :
    (∀ (k : Int) (road : Road) (car : Car),
        can_cross 1 k road car = true ↔ ∀ c ∈ road.cars, c.state ≠ "crossing")
    ∧ ∀ (k : Int) (r : Road), Reach 1 k r → countCrossing r.cars ≤ 1 :=
  ⟨can_cross_exclusive_iff, exclusive_inv⟩

/-- Claim C3 (amended): a car whose `waiting_time` exceeds
`MAX_WAITING_TIME` while WAITING abandons and never reaches CROSSING — in
every reachable state every crossing car has
`waiting_time ≤ MAX_WAITING_TIME` — but it is NOT removed from its road's
`cars` collection: every step of the relation keeps the timed-out car,
unchanged, in the collection (only cars that crossed are ever removed). -/
theorem timeout_abandon_behavior :
    (∀ (ct k : Int) (r : Road), Reach ct k r →
        ∀ c ∈ r.cars, c.state = "crossing" → c.waiting_time ≤ MAX_WAITING_TIME)
    ∧ ∀ (ct k : Int) (r r' : Road) (c : Car), Step ct k r r' →
        c ∈ r.cars → c.state = "waiting" →
        MAX_WAITING_TIME < c.waiting_time → c ∈ r'.cars :=
  ⟨crossing_wt_inv, step_timeout_persist⟩

/-- Claim C3 counterexample: after `301` waiting ticks
(`waiting_time = 30.1 > 30`) the car is reachable, still WAITING, still in
its road's collection — and no continuation of the run ever removes it,
refuting the claimed removal on timeout. -/
theorem timeout_car_never_removed :
    Reach 1 3 (waitRoad 301)
    ∧ waitCar 301 ∈ (waitRoad 301).cars
    ∧ MAX_WAITING_TIME < (waitCar 301).waiting_time
    ∧ (∃ r' : Road, Steps 1 3 (waitRoad 301) r'
        ∧ waitCar 301 ∉ r'.cars) = False := by
  have ht : MAX_WAITING_TIME < (waitCar 301).waiting_time := by
    show MAX_WAITING_TIME < ((301 : ℕ) : ℚ) / 10
    rw [MAX_WAITING_TIME]
    norm_num
  refine ⟨reach_waitRoad 1 3 301 le_rfl, by simp [waitRoad], ht, ?_⟩
  apply eq_false
  rintro ⟨r', hsteps, habs⟩
  exact habs (steps_timeout_persist 1 3 (waitRoad 301) r' (waitCar 301) hsteps
    (by simp [waitRoad]) rfl ht)

/-- Claim C4: in BOUNDED(k) mode (`case_type = 2`) with `k ≥ 1`, every
reachable road state has at most `k` crossing cars. -/
theorem bounded_capacity (k : Int) (r : Road) (hk : 1 ≤ k)
    (h : Reach 2 k r) : (countCrossing r.cars : Int) ≤ k :=
  bounded_inv k hk r h

/-- Witness: `bounded_capacity` at `k = 3` on a reachable road with one crossing
car. -/
theorem bounded_capacity_witness :
    (countCrossing (crossRoad 0).cars : Int) ≤ 3 :=
  bounded_capacity 3 (crossRoad 0) (by norm_num)
    (reach_crossRoad 2 3 (by decide) 0 (by omega))

/-- The state `start_simulation` is called in through the GUI: no run
active, a non-numeric car count typed into the entry. -/
def orchIdle : Orch :=
  { is_running := false, case_type := 1, case_var := "1", cars_entry := "abc",
    k_entry := "3", road1 := initRoad "Road 1", road2 := initRoad "Road 2",
    car_threads := [] }

/-- Like `orchIdle` but with a valid car count and a non-numeric k. -/
def orchBadK : Orch :=
  { is_running := false, case_type := 1, case_var := "1", cars_entry := "2",
    k_entry := "xyz", road1 := initRoad "Road 1", road2 := initRoad "Road 2",
    car_threads := [] }

/-- Claim C5 counterexample: with a non-numeric car count the error does
surface synchronously, but shared state HAS been modified when `start`
fails — the running flag was set to `True` before the parse (src line 586
precedes line 588); and a non-numeric k value makes `start` fail not at
all: `k_entry` is only parsed later, inside `can_cross`. -/
theorem start_error_state_leak :
    orchIdle.is_running = false
    ∧ (start_simulation (fun _ => 1) orchIdle).error.isSome = true
    ∧ (start_simulation (fun _ => 1) orchIdle).state.is_running = true
    ∧ parseInt orchBadK.k_entry = none
    ∧ (start_simulation (fun _ => 1) orchBadK).error = none
    ∧ (start_simulation (fun _ => 1) orchBadK).cars_started = 2 := by
  refine ⟨rfl, by decide, by decide, by decide, by decide, by decide⟩

/-- Claim C5 (amended): a non-numeric car count surfaces synchronously out
of `start_simulation` with no threads launched and the roads and the
thread list untouched — but only after the running flag has been set and
the case parsed; and `start_simulation` never reads `k_entry`, so a bad
k value is not surfaced at start (it fails later, inside `can_cross`). -/
theorem start_error_behavior (roadOf : Nat → Nat) (s : Orch) (ct : Int)
    (hcase : parseInt s.case_var = some ct)
    (hcars : parseInt s.cars_entry = none) :
    (start_simulation roadOf s).error.isSome = true
    ∧ (start_simulation roadOf s).light_thread_started = false
    ∧ (start_simulation roadOf s).display_thread_started = false
    ∧ (start_simulation roadOf s).cars_started = 0
    ∧ (start_simulation roadOf s).state.road1 = s.road1
    ∧ (start_simulation roadOf s).state.road2 = s.road2
    ∧ (start_simulation roadOf s).state.car_threads = s.car_threads
    ∧ (start_simulation roadOf s).state.is_running = true
    ∧ (start_simulation roadOf s).state.case_type = ct
    ∧ ∀ v : String,
        (start_simulation roadOf { s with k_entry := v }).error
          = (start_simulation roadOf s).error := by
  simp [start_simulation, hcase, hcars]

/-- Witness: `start_error_behavior` at the concrete GUI state `orchIdle`. -/
theorem start_error_behavior_witness :
    (start_simulation (fun _ => 1) orchIdle).error.isSome = true
    ∧ (start_simulation (fun _ => 1) orchIdle).light_thread_started = false
    ∧ (start_simulation (fun _ => 1) orchIdle).display_thread_started = false
    ∧ (start_simulation (fun _ => 1) orchIdle).cars_started = 0
    ∧ (start_simulation (fun _ => 1) orchIdle).state.road1 = orchIdle.road1
    ∧ (start_simulation (fun _ => 1) orchIdle).state.road2 = orchIdle.road2
    ∧ (start_simulation (fun _ => 1) orchIdle).state.car_threads
        = orchIdle.car_threads
    ∧ (start_simulation (fun _ => 1) orchIdle).state.is_running = true
    ∧ (start_simulation (fun _ => 1) orchIdle).state.case_type = 1
    ∧ ∀ v : String,
        (start_simulation (fun _ => 1) { orchIdle with k_entry := v }).error
          = (start_simulation (fun _ => 1) orchIdle).error :=
  start_error_behavior (fun _ => 1) orchIdle 1 (by decide) (by decide)

/-- Claim C6 (amended): every car's progress is `0` while WAITING and lies
in `[0, CAR_CROSSING_TIME] = [0, 2]` — not in `[0, 1)`: the fixed-duration
crossing loop (2 seconds of `0.1`-ticks) drives `position` up to `2.0`. -/
theorem progress_bounds (ct k : Int) (r : Road) (h : Reach ct k r) :
    ∀ c ∈ r.cars, (0 ≤ c.position ∧ c.position ≤ CAR_CROSSING_TIME)
      ∧ (c.state = "waiting" → c.position = 0) := by
  intro c hc
  obtain ⟨hw, n, hn, hpn⟩ := position_inv ct k r h c hc
  refine ⟨⟨?_, ?_⟩, hw⟩
  · rw [hpn]
    positivity
  · rw [hpn, CAR_CROSSING_TIME, div_le_iff₀ (by norm_num)]
    have hq : (n : ℚ) ≤ 20 := by exact_mod_cast hn
    linarith

/-- Witness: `progress_bounds` at the reachable crossing car with `position = 1`. -/
theorem progress_bounds_witness :
    (0 ≤ (crossCar 10).position
      ∧ (crossCar 10).position ≤ CAR_CROSSING_TIME)
    ∧ ((crossCar 10).state = "waiting" → (crossCar 10).position = 0) :=
  progress_bounds 1 3 (crossRoad 10)
    (reach_crossRoad 1 3 (by decide) 10 (by omega))
    (crossCar 10) (by simp [crossRoad])

/-- Claim C6 counterexample: a reachable state (one car admitted under
EXCLUSIVE mode, then ten crossing ticks) whose car has `position = 1.0`,
outside the claimed interval `[0, 1)`. -/
theorem progress_exceeds_one :
    Reach 1 3 (crossRoad 10) ∧ crossCar 10 ∈ (crossRoad 10).cars
      ∧ 1 ≤ (crossCar 10).position := by
  refine ⟨reach_crossRoad 1 3 (by decide) 10 (by omega), by simp [crossRoad], ?_⟩
  show (1 : ℚ) ≤ ((10 : ℕ) : ℚ) / 10
  norm_num

/-- Claim C7 (amended): each road's phase does follow the cycle
RED → GREEN → YELLOW → RED, but the single `traffic_light_process` thread
drives the two roads in strict alternation (road 1's full cycle, then road
2's), so the two roads' green phases are mutually exclusive: no reachable
light-thread state has both roads GREEN. -/
theorem light_cycle_and_exclusion :
    (∀ s s' : LightSys, LReach s → LStep s s' →
        (s'.road1_light = s.road1_light
          ∨ cycleNext s.road1_light s'.road1_light)
        ∧ (s'.road2_light = s.road2_light
          ∨ cycleNext s.road2_light s'.road2_light))
    ∧ ∀ s : LightSys, LReach s →
        ¬(s.road1_light = LightState.GREEN
          ∧ s.road2_light = LightState.GREEN) := by
  constructor
  · intro s s' hr hs
    have hi := lreach_inv s hr
    cases hs with
    | green1 hpc =>
      rcases hi with ⟨h1, h2, h3⟩ | ⟨h1, h2, h3⟩ | ⟨h1, h2, h3⟩ | ⟨h1, h2, h3⟩ |
          ⟨h1, h2, h3⟩ | ⟨h1, h2, h3⟩ <;>
        first
          | exact ⟨Or.inr (Or.inl ⟨h2, rfl⟩), Or.inl rfl⟩
          | omega
    | yellow1 hpc =>
      rcases hi with ⟨h1, h2, h3⟩ | ⟨h1, h2, h3⟩ | ⟨h1, h2, h3⟩ | ⟨h1, h2, h3⟩ |
          ⟨h1, h2, h3⟩ | ⟨h1, h2, h3⟩ <;>
        first
          | exact ⟨Or.inr (Or.inr (Or.inl ⟨h2, rfl⟩)), Or.inl rfl⟩
          | omega
    | red1 hpc =>
      rcases hi with ⟨h1, h2, h3⟩ | ⟨h1, h2, h3⟩ | ⟨h1, h2, h3⟩ | ⟨h1, h2, h3⟩ |
          ⟨h1, h2, h3⟩ | ⟨h1, h2, h3⟩ <;>
        first
          | exact ⟨Or.inr (Or.inr (Or.inr ⟨h2, rfl⟩)), Or.inl rfl⟩
          | omega
    | green2 hpc =>
      rcases hi with ⟨h1, h2, h3⟩ | ⟨h1, h2, h3⟩ | ⟨h1, h2, h3⟩ | ⟨h1, h2, h3⟩ |
          ⟨h1, h2, h3⟩ | ⟨h1, h2, h3⟩ <;>
        first
          | exact ⟨Or.inl rfl, Or.inr (Or.inl ⟨h3, rfl⟩)⟩
          | omega
    | yellow2 hpc =>
      rcases hi with ⟨h1, h2, h3⟩ | ⟨h1, h2, h3⟩ | ⟨h1, h2, h3⟩ | ⟨h1, h2, h3⟩ |
          ⟨h1, h2, h3⟩ | ⟨h1, h2, h3⟩ <;>
        first
          | exact ⟨Or.inl rfl, Or.inr (Or.inr (Or.inl ⟨h3, rfl⟩))⟩
          | omega
    | red2 hpc =>
      rcases hi with ⟨h1, h2, h3⟩ | ⟨h1, h2, h3⟩ | ⟨h1, h2, h3⟩ | ⟨h1, h2, h3⟩ |
          ⟨h1, h2, h3⟩ | ⟨h1, h2, h3⟩ <;>
        first
          | exact ⟨Or.inl rfl, Or.inr (Or.inr (Or.inr ⟨h3, rfl⟩))⟩
          | omega
  · rintro s hr ⟨hg1, hg2⟩
    rcases lreach_inv s hr with ⟨h1, h2, h3⟩ | ⟨h1, h2, h3⟩ | ⟨h1, h2, h3⟩ |
        ⟨h1, h2, h3⟩ | ⟨h1, h2, h3⟩ | ⟨h1, h2, h3⟩ <;> simp_all

/-- Claim C7 counterexample: the claimed both-GREEN state is unreachable —
the negation of the claim's existential. -/
theorem both_green_unreachable : bothGreenReachable = False := by
  apply eq_false
  rintro ⟨s, hr, hg1, hg2⟩
  rcases lreach_inv s hr with ⟨h1, h2, h3⟩ | ⟨h1, h2, h3⟩ | ⟨h1, h2, h3⟩ |
      ⟨h1, h2, h3⟩ | ⟨h1, h2, h3⟩ | ⟨h1, h2, h3⟩ <;> simp_all

/-- Claim C8 (amended): within a run, car actions never write a road's
`light_state` — any step that changes it leaves `cars` unchanged and
follows the controller's RED → GREEN → YELLOW → RED cycle — but the
controller is not the sole writer overall: `stop_simulation` (and
`start_simulation`) also reset both roads' `light_state` to RED. -/
theorem light_phase_writers :
    (∀ (ct k : Int) (r r' : Road), Step ct k r r' →
        r'.light_state = r.light_state
        ∨ (r'.cars = r.cars ∧ cycleNext r.light_state r'.light_state))
    ∧ ∀ s : Orch, (stop_simulation s).road1.light_state = LightState.RED
        ∧ (stop_simulation s).road2.light_state = LightState.RED := by
  constructor
  · intro ct k r r' hs
    cases hs with
    | arrive cid rn => exact Or.inl rfl
    | startCrossing l1 l2 c h1 h2 h3 h4 h5 => exact Or.inl rfl
    | waitTick l1 l2 c h1 h2 h3 => exact Or.inl rfl
    | advance l1 l2 c h1 h2 h3 => exact Or.inl rfl
    | exitCar l1 l2 c h1 h2 => exact Or.inl rfl
    | lightGreen hl => exact Or.inr ⟨rfl, Or.inl ⟨hl, rfl⟩⟩
    | lightYellow hl => exact Or.inr ⟨rfl, Or.inr (Or.inl ⟨hl, rfl⟩)⟩
    | lightRed hl => exact Or.inr ⟨rfl, Or.inr (Or.inr ⟨hl, rfl⟩)⟩
  · intro s
    exact ⟨rfl, rfl⟩

/-- Witness: `light_phase_writers` at a concrete arrive step, which changes no
light. -/
theorem light_phase_writers_witness :
    ({ initRoad "Road 1" with
        cars := (initRoad "Road 1").cars
          ++ [⟨1, 1, 0, 0, 0, "waiting"⟩] } : Road).light_state
      = (initRoad "Road 1").light_state
    ∨ (({ initRoad "Road 1" with
        cars := (initRoad "Road 1").cars
          ++ [⟨1, 1, 0, 0, 0, "waiting"⟩] } : Road).cars
        = (initRoad "Road 1").cars
      ∧ cycleNext (initRoad "Road 1").light_state
          ({ initRoad "Road 1" with
              cars := (initRoad "Road 1").cars
                ++ [⟨1, 1, 0, 0, 0, "waiting"⟩] } : Road).light_state) :=
  light_phase_writers.1 1 3 (initRoad "Road 1") _
    (Step.arrive (initRoad "Road 1") 1 1)

/-- An orchestrator state mid-run with road 1's light GREEN. -/
def orchGreenRun : Orch :=
  { is_running := true, case_type := 1, case_var := "1", cars_entry := "10",
    k_entry := "3",
    road1 := { name := "Road 1", light_state := LightState.GREEN,
               cars := [], queue_length := 0 },
    road2 := initRoad "Road 2", car_threads := [] }

/-- Claim C8 counterexample: `stop_simulation` — an operation that is not
a light-controller phase transition — writes `light_phase`: it turns road
1's GREEN into RED. -/
theorem stop_writes_light_phase :
    orchGreenRun.road1.light_state = LightState.GREEN
    ∧ (stop_simulation orchGreenRun).road1.light_state = LightState.RED
    ∧ (stop_simulation orchGreenRun).road1.light_state
        ≠ orchGreenRun.road1.light_state :=
  ⟨rfl, rfl, by decide⟩

/-- An orchestrator state with a run in progress: the flag set, a car
waiting on road 1, one live car thread. -/
def orchRunning : Orch :=
  { is_running := true, case_type := 2, case_var := "2", cars_entry := "2",
    k_entry := "3",
    road1 := { name := "Road 1", light_state := LightState.GREEN,
               cars := [⟨7, 1, 0, 0, 0, "waiting"⟩], queue_length := 0 },
    road2 := initRoad "Road 2", car_threads := [(7, 1)] }

/-- Claim C9 counterexample: a direct call to `start_simulation` while a
run is active is not rejected — it raises no error, launches a second
light thread, display thread and car threads, and resets the roads of the
active run (road 1's car is wiped). -/
theorem start_simulation_unguarded :
    orchRunning.is_running = true
    ∧ (start_simulation (fun _ => 1) orchRunning).error = none
    ∧ (start_simulation (fun _ => 1) orchRunning).light_thread_started = true
    ∧ (start_simulation (fun _ => 1) orchRunning).display_thread_started = true
    ∧ (start_simulation (fun _ => 1) orchRunning).cars_started = 2
    ∧ (start_simulation (fun _ => 1) orchRunning).state.road1.cars = []
    ∧ orchRunning.road1.cars ≠ [] := by
  decide

/-- Claim C9 (amended): the active-run guard lives in `toggle_simulation`,
the only caller of `start_simulation`: while a run is active a toggle
launches nothing and starts nothing — it invokes `stop_simulation` on the
active run instead — and only from an inactive state does a toggle invoke
`start_simulation`. -/
theorem toggle_guards_start (roadOf : Nat → Nat) (s : Orch) :
    (s.is_running = true →
        toggle_simulation roadOf s
          = ⟨stop_simulation s, false, false, 0, none⟩)
    ∧ (s.is_running = false →
        toggle_simulation roadOf s = start_simulation roadOf s) := by
  constructor
  · intro h
    unfold toggle_simulation
    rw [h]
    simp
  · intro h
    unfold toggle_simulation
    rw [h]
    simp

/-- Claim C10: after any `stop_simulation` both roads' `cars` collections
are empty and both lights are RED, and a second consecutive
`stop_simulation` leaves every road's state unchanged. -/
theorem stop_resets_roads_idempotent (s : Orch) :
    (stop_simulation s).road1.cars = []
    ∧ (stop_simulation s).road2.cars = []
    ∧ (stop_simulation s).road1.light_state = LightState.RED
    ∧ (stop_simulation s).road2.light_state = LightState.RED
    ∧ (stop_simulation (stop_simulation s)).road1 = (stop_simulation s).road1
    ∧ (stop_simulation (stop_simulation s)).road2 = (stop_simulation s).road2 :=
  ⟨rfl, rfl, rfl, rfl, rfl, rfl⟩

end TrafficSim
